import Mathlib

/-!
Verification of the signed WebSocket request/response channel in
`src/binance/ws_api_client.go` (package `binance`).

The Go code is shallowly embedded: `map[string]interface{}` parameter
mappings become association lists with unique keys, Go's `interface{}`
scalar values become the inductive `GoValue` (the scalar kinds handled by
`buildSignaturePayload`'s type switch: string, int/int64, bool), and the
effectful channel operations (`SendRequest`, `SendSignedRequest`) become
functions over an explicit description of the connection's behaviour.
Go map mutation is modelled with an explicit heap of map references.
-/

namespace Binance

/-- Scalar values stored in a `map[string]interface\x7b\x7d` parameter mapping.
`int` covers Go's `int` and `int64` arms of `buildSignaturePayload`'s type
switch (both are rendered with `strconv.FormatInt(_, 10)`). -/
inductive GoValue where
  | str (s : String)
  | int (n : Int)
  | bool (b : Bool)
deriving DecidableEq, Repr

/-- A Go `map[string]interface\x7b\x7d`, as an association list.  A value built
by Go map operations always has `Nodup` keys; theorems that need this take
it as a hypothesis. -/
def Params : Type := List (String × GoValue)

instance : DecidableEq Params := by
  unfold Params
  infer_instance

/-- Go map indexing `params[k]` (first binding wins; with `Nodup` keys there
is at most one). -/
def lookupParam : Params → String → Option GoValue
  | [], _ => none
  | (k', v) :: rest, k => if k' = k then some v else lookupParam rest k

/-- Go map assignment `params[k] = v`: replaces the existing binding for `k`
in place, or appends a new binding. -/
def setParam (p : Params) (k : String) (v : GoValue) : Params :=
  match p with
  | [] => [(k, v)]
  | (k', v') :: rest =>
    if k' = k then (k', v) :: rest else (k', v') :: setParam rest k v

/-- Byte-order comparison on rune lists: Go compares strings by UTF-8 bytes,
which coincides with lexicographic comparison of Unicode code points. -/
def ltListChar : List Char → List Char → Bool
  | [], [] => false
  | [], _ :: _ => true
  | _ :: _, [] => false
  | a :: as, b :: bs =>
    if a.toNat < b.toNat then true
    else if b.toNat < a.toNat then false
    else ltListChar as bs

/-- Go string comparison `a < b`. -/
def strLt (a b : String) : Bool := ltListChar a.data b.data

/-- Go string comparison `a <= b`. -/
def strLe (a b : String) : Bool := !(strLt b a)

/-- The ascending key order used by `sort.Strings`, as a proposition. -/
def keyLe (a b : String) : Prop := strLe a b = true

instance : DecidableRel keyLe := fun a b => by
  unfold keyLe
  infer_instance

/-- Model of `sort.Strings`: sorts keys ascending in Go byte order.  The
algorithm differs from Go's introsort, but ascending order under the total
antisymmetric relation `keyLe` determines the output list uniquely, so the
two agree on every input. -/
def sortKeys (l : List String) : List String := List.insertionSort keyLe l

/-- Rendering of one parameter value inside `buildSignaturePayload`'s
type switch (`strconv.FormatInt` for integers, literal `true`/`false` for
booleans, the string itself for strings). -/
def renderValue : GoValue → String
  | .str s => s
  | .int n => toString n
  | .bool true => "true"
  | .bool false => "false"

/-- Rendering of `params[k]` in the payload loop.  The `none` branch is
unreachable there because `k` is always drawn from the keys of `params`. -/
def renderLookup (p : Params) (k : String) : String :=
  match lookupParam p k with
  | some v => renderValue v
  | none => ""

/-- The sorted key list built by `buildSignaturePayload`: every key of the
mapping except any key literally equal to `"signature"`, sorted ascending. -/
def payloadKeys (p : Params) : List String :=
  sortKeys ((p.map Prod.fst).filter (fun k => k != "signature"))

/-- Model of `buildSignaturePayload` (`ws_api_client.go:172-212`): collect
the keys other than `"signature"`, sort them, and join `key=value` pairs
with `&`.  The Go function's `error` result is always `nil`, so the model
returns the string directly. -/
def buildSignaturePayload (p : Params) : String :=
  String.intercalate "&" ((payloadKeys p).map (fun k => k ++ "=" ++ renderLookup p k))

/-- `ed25519.SeedSize`. -/
def seedSize : Nat := 32

/-- `ed25519.PrivateKeySize`. -/
def privateKeySize : Nat := 64

/-- ASCII whitespace, as recognised by `strings.TrimSpace`. -/
def isGoSpace (b : UInt8) : Bool :=
  b == 32 || b == 9 || b == 10 || b == 11 || b == 12 || b == 13

/-- Model of `data = []byte(strings.TrimSpace(string(data)))` for byte
content whose leading/trailing whitespace is ASCII. -/
def trimSpace (d : List UInt8) : List UInt8 :=
  ((d.dropWhile isGoSpace).reverse.dropWhile isGoSpace).reverse

/-- Outcome of `x509.ParsePKCS8PrivateKey` on a PEM block, as far as
`resolvePrivateKey` inspects it: an `ed25519.PrivateKey` (carrying the key
bytes), or some other successfully parsed key type. -/
inductive ParsedPKCS8 where
  | ed25519Key (key : List UInt8)
  | otherKey
deriving DecidableEq

/-- Model of `resolvePrivateKey` (`ws_api_client.go:103-129`), given the raw
bytes read from the key file.  The stdlib collaborators are abstract
function parameters: `pemDecode` models `pem.Decode` (returning the block's
bytes when a block is found), `parsePKCS8` models
`x509.ParsePKCS8PrivateKey` (`none` = parse error), and `newKeyFromSeed`
models `ed25519.NewKeyFromSeed`. -/
def resolvePrivateKey
    (pemDecode : List UInt8 → Option (List UInt8))
    (parsePKCS8 : List UInt8 → Option ParsedPKCS8)
    (newKeyFromSeed : List UInt8 → List UInt8)
    (fileData : List UInt8) : Except String (List UInt8) :=
  let data := trimSpace fileData
  let viaPem : Option (List UInt8) :=
    match pemDecode data with
    | some blk =>
      match parsePKCS8 blk with
      | some (.ed25519Key pk) => some pk
      | _ => none
    | none => none
  match viaPem with
  | some pk => .ok pk
  | none =>
    if data.length = seedSize then .ok (newKeyFromSeed data)
    else if data.length = privateKeySize then .ok data
    else .error "invalid Ed25519 key content (expect raw 32-byte seed, 64-byte key, or PKCS#8 PEM)"

/-- A low-level I/O error from a websocket write or read: either the
deadline set from the caller's context elapsed (`os.ErrDeadlineExceeded` as
the root cause), or some other transport error. -/
inductive IOErr where
  | deadlineExceeded
  | other (msg : String)
deriving DecidableEq

/-- Error text of the underlying I/O error. -/
def IOErr.message : IOErr → String
  | .deadlineExceeded => "i/o timeout"
  | .other m => m

/-- The `error` object of a response envelope. -/
structure WSError where
  code : Int
  msg : String
deriving DecidableEq

/-- Model of `WSResponse` (`ws_api_client.go:88-97`).  The correlation id is
restricted to integers and the result payload to `GoValue` scalars; neither
restriction matters to the envelope-level control flow. -/
structure WSResponse where
  id : Int
  status : Int
  result : Option GoValue
  errObj : Option WSError
deriving DecidableEq

/-- Model of `json.Marshal` on a parameter value. -/
def marshalGoValue : GoValue → String
  | .str s => "\"" ++ s ++ "\""
  | .int n => toString n
  | .bool true => "true"
  | .bool false => "false"

/-- Model of `json.Marshal` on a `WSResponse` envelope (with `omitempty` on
`result` and `error`), used by `SendRequest` to serialize a non-success
envelope into the returned error. -/
def marshalResponse (r : WSResponse) : String :=
  "\x7b\"id\":" ++ toString r.id ++ ",\"status\":" ++ toString r.status
    ++ (match r.result with
        | some v => ",\"result\":" ++ marshalGoValue v
        | none => "")
    ++ (match r.errObj with
        | some e =>
          ",\"error\":\x7b\"code\":" ++ toString e.code ++ ",\"msg\":\"" ++ e.msg ++ "\"\x7d"
        | none => "")
    ++ "\x7d"

/-- The errors `SendRequest`/`SendSignedRequest` can return, one constructor
per `return`-with-error site, each carrying what the Go error wraps. -/
inductive GoError where
  | keyErr (msg : String)
  | sendFailed (cause : IOErr)
  | readFailed (cause : IOErr)
  | requestFailed (envelope : String)
  | decodeFailed (cause : String)
deriving DecidableEq

/-- The Go error message, following the `fmt.Errorf` format strings in
`SendRequest` (`%w`/`%s` interpolate the wrapped cause). -/
def GoError.message : GoError → String
  | .keyErr m => m
  | .sendFailed c => "failed to send request: " ++ c.message
  | .readFailed c => "failed to read response: " ++ c.message
  | .requestFailed env => "request failed: " ++ env
  | .decodeFailed m => "failed to decode result: " ++ m

/-- Model of `errors.Is(err, os.ErrDeadlineExceeded)` on a returned error:
`fmt.Errorf` with `%w` preserves the cause chain, so the deadline cause is
recoverable exactly from the wrapped I/O error. -/
def GoError.isDeadlineExceeded : GoError → Bool
  | .sendFailed .deadlineExceeded => true
  | .readFailed .deadlineExceeded => true
  | _ => false

deriving instance DecidableEq for Except

/-- Behaviour of the websocket connection during one call: the outcome of
`WriteJSON` (`none` = success), the outcome of `ReadJSON`, and the outcome
of `json.Unmarshal` of the result into the caller's `out` shape
(`none` = success). -/
structure ConnBehavior where
  writeErr : Option IOErr
  readOutcome : Except IOErr WSResponse
  decodeErr : Option String
deriving DecidableEq

/-- Model of `WSRequest` (`ws_api_client.go:81-86`), correlation id
restricted to integers. -/
structure WSRequest where
  id : Int
  method : String
  params : Params
deriving DecidableEq

/-- Result of one `SendRequest`/`SendSignedRequest` call: the returned
error (if any), whether the result was decoded into the caller's `out`
pointer, and the requests handed to `WriteJSON` during the call. -/
structure SendOutcome where
  result : Except GoError Unit
  outWritten : Bool
  sent : List WSRequest
deriving DecidableEq

/-- Model of `SendRequest` (`ws_api_client.go:135-164`): write the request,
read the response envelope, fail on a non-success status with the
serialized envelope, otherwise decode the result into `out` when `out` is
non-nil and a result is present. -/
def SendRequest (conn : ConnBehavior) (id : Int) (method : String)
    (params : Params) (outProvided : Bool) : SendOutcome :=
  let req : WSRequest := ⟨id, method, params⟩
  match conn.writeErr with
  | some e => ⟨.error (.sendFailed e), false, [req]⟩
  | none =>
    match conn.readOutcome with
    | .error e => ⟨.error (.readFailed e), false, [req]⟩
    | .ok resp =>
      if resp.status ≠ 200 then ⟨.error (.requestFailed (marshalResponse resp)), false, [req]⟩
      else if outProvided && resp.result.isSome then
        match conn.decodeErr with
        | some m => ⟨.error (.decodeFailed m), false, [req]⟩
        | none => ⟨.ok (), true, [req]⟩
      else ⟨.ok (), false, [req]⟩

/-- The timestamp truncation `ts = (ts / 1000) * 1000` of
`ws_api_client.go:231-232`.  Go's `int64` division truncates toward zero,
which is `Int.tdiv`. -/
def goTruncMs (ts : Int) : Int := (Int.tdiv ts 1000) * 1000

/-- The parameter-injection prologue of `SendSignedRequest`
(`ws_api_client.go:222-233`): replace a nil mapping by an empty one, inject
`apiKey` from the configuration when absent, inject the second-truncated
`timestamp` when absent.  `serverTimeMs` is the value returned by
`getServerTimeMs`. -/
def injectParams (apiKeyCfg : String) (serverTimeMs : Int)
    (params : Option Params) : Params :=
  let p0 := match params with
    | none => ([] : Params)
    | some p => p
  let p1 := if (lookupParam p0 "apiKey").isNone
    then setParam p0 "apiKey" (.str apiKeyCfg) else p0
  if (lookupParam p1 "timestamp").isNone
    then setParam p1 "timestamp" (.int (goTruncMs serverTimeMs)) else p1

/-- The environment a `SendSignedRequest` call runs in: the outcome of
`resolvePrivateKey` on the configured key file, the configured API key, the
server time fetched by `getServerTimeMs`, the signing collaborator
(`base64.StdEncoding.EncodeToString` of `ed25519.Sign` of the payload), and
the connection's behaviour. -/
structure SignedEnv where
  keyRes : Except String (List UInt8)
  apiKeyCfg : String
  serverTimeMs : Int
  signB64 : List UInt8 → String → String
  conn : ConnBehavior

/-- The signing epilogue of `SendSignedRequest` (`ws_api_client.go:235-246`):
build the payload, sign it, and store the encoded signature under
`"signature"`. -/
def signedParams (env : SignedEnv) (priv : List UInt8) (p : Params) : Params :=
  setParam p "signature" (.str (env.signB64 priv (buildSignaturePayload p)))

/-- Model of `SendSignedRequest` (`ws_api_client.go:216-248`): resolve the
private key (returning its error verbatim, before any connection use),
inject parameters, sign, and delegate to `SendRequest`. -/
def SendSignedRequest (env : SignedEnv) (id : Int) (method : String)
    (params : Option Params) (outProvided : Bool) : SendOutcome :=
  match env.keyRes with
  | .error e => ⟨.error (.keyErr e), false, []⟩
  | .ok priv =>
    let p2 := signedParams env priv (injectParams env.apiKeyCfg env.serverTimeMs params)
    SendRequest env.conn id method p2 outProvided

/-- A heap of Go map objects, addressed by reference. -/
def Heap : Type := Nat → Params

/-- Store a new map value at reference `r`. -/
def updateHeap (h : Heap) (r : Nat) (p : Params) : Heap :=
  fun x => if x = r then p else h x

/-- `SendSignedRequest` with Go's map-reference semantics explicit: the
caller passes a reference `r` to its own map object in the heap `h`, and
every `params[...] = ...` assignment mutates that object in place.  The
returned heap is the heap after the call. -/
def SendSignedRequestRef (env : SignedEnv) (id : Int) (method : String)
    (h : Heap) (r : Nat) (outProvided : Bool) : SendOutcome × Heap :=
  match env.keyRes with
  | .error e => (⟨.error (.keyErr e), false, []⟩, h)
  | .ok priv =>
    let p2 := signedParams env priv (injectParams env.apiKeyCfg env.serverTimeMs (some (h r)))
    (SendRequest env.conn id method p2 outProvided, updateHeap h r p2)

/-! ### Order lemmas for the key sort -/

theorem charToNat_inj {a b : Char} (h : a.toNat = b.toNat) : a = b :=
  Char.eq_of_val_eq (UInt32.ext h)

theorem ltListChar_irrefl : ∀ a, ltListChar a a = false
  | [] => rfl
  | x :: as => by simp [ltListChar, ltListChar_irrefl as]

theorem ltListChar_asymm : ∀ {a b : List Char},
    ltListChar a b = true → ltListChar b a = false
  | [], [], _ => rfl
  | [], _ :: _, _ => by simp [ltListChar]
  | _ :: _, [], h => by simp [ltListChar] at h
  | x :: as, y :: bs, h => by
    simp only [ltListChar] at h ⊢
    rcases Nat.lt_trichotomy x.toNat y.toNat with hc | hc | hc
    · simp [Nat.lt_asymm hc, hc]
    · simp only [hc, lt_self_iff_false, if_false] at h ⊢
      exact ltListChar_asymm h
    · simp [hc, Nat.lt_asymm hc] at h

theorem ltListChar_eq_of_not : ∀ {a b : List Char},
    ltListChar a b = false → ltListChar b a = false → a = b
  | [], [], _, _ => rfl
  | [], _ :: _, h1, _ => by simp [ltListChar] at h1
  | _ :: _, [], _, h2 => by simp [ltListChar] at h2
  | x :: as, y :: bs, h1, h2 => by
    rcases Nat.lt_trichotomy x.toNat y.toNat with hc | hc | hc
    · simp [ltListChar, hc] at h1
    · have hx : x = y := charToNat_inj hc
      subst hx
      simp only [ltListChar, lt_self_iff_false, if_false] at h1 h2
      rw [ltListChar_eq_of_not h1 h2]
    · simp [ltListChar, hc] at h2

theorem ltListChar_trans : ∀ {a b c : List Char},
    ltListChar a b = true → ltListChar b c = true → ltListChar a c = true
  | [], [], _, h1, _ => by simp [ltListChar] at h1
  | [], _ :: _, [], _, h2 => by simp [ltListChar] at h2
  | [], _ :: _, _ :: _, _, _ => by simp [ltListChar]
  | _ :: _, [], _, h1, _ => by simp [ltListChar] at h1
  | _ :: _, _ :: _, [], _, h2 => by simp [ltListChar] at h2
  | x :: as, y :: bs, z :: cs, h1, h2 => by
    simp only [ltListChar] at h1 h2 ⊢
    rcases Nat.lt_trichotomy x.toNat y.toNat with hxy | hxy | hxy
    · rcases Nat.lt_trichotomy y.toNat z.toNat with hyz | hyz | hyz
      · simp [Nat.lt_trans hxy hyz]
      · have : x.toNat < z.toNat := by omega
        simp [this]
      · simp [hyz, Nat.lt_asymm hyz] at h2
    · rcases Nat.lt_trichotomy y.toNat z.toNat with hyz | hyz | hyz
      · have : x.toNat < z.toNat := by omega
        simp [this]
      · have hxz : x.toNat = z.toNat := by omega
        simp only [hxy, lt_self_iff_false, if_false] at h1
        simp only [hyz, lt_self_iff_false, if_false] at h2
        simp only [hxz, lt_self_iff_false, if_false]
        exact ltListChar_trans h1 h2
      · simp [hyz, Nat.lt_asymm hyz] at h2
    · simp [hxy, Nat.lt_asymm hxy] at h1

instance : IsTotal String keyLe := by
  constructor
  intro a b
  unfold keyLe strLe strLt
  rcases hc : ltListChar b.data a.data with _ | _
  · left
    simp [hc]
  · right
    simp [ltListChar_asymm hc]

instance : IsTrans String keyLe := by
  constructor
  intro a b c h1 h2
  unfold keyLe strLe strLt at h1 h2 ⊢
  simp only [Bool.not_eq_true'] at h1 h2 ⊢
  rcases hab : ltListChar a.data b.data with _ | _
  · rw [ltListChar_eq_of_not hab h1]
    exact h2
  · rcases hca : ltListChar c.data a.data with _ | _
    · rfl
    · rw [ltListChar_trans hca hab] at h2
      exact h2

instance : IsAntisymm String keyLe := by
  constructor
  intro a b h1 h2
  unfold keyLe strLe strLt at h1 h2
  simp only [Bool.not_eq_true'] at h1 h2
  exact String.ext (ltListChar_eq_of_not h2 h1)

/-! ### Lookup and payload lemmas -/

theorem lookupParam_perm {p1 p2 : Params} (h : p1.Perm p2) :
    (p1.map Prod.fst).Nodup → ∀ k, lookupParam p1 k = lookupParam p2 k := by
  induction h with
  | nil => intro _ k; rfl
  | cons x h ih =>
    intro nd k
    obtain ⟨kx, vx⟩ := x
    simp only [List.map_cons, List.nodup_cons] at nd
    simp only [lookupParam]
    by_cases hk : kx = k
    · simp [hk]
    · simpa [hk] using ih nd.2 k
  | swap x y l =>
    intro nd k
    obtain ⟨kx, vx⟩ := x
    obtain ⟨ky, vy⟩ := y
    simp only [List.map_cons, List.nodup_cons, List.mem_cons] at nd
    simp only [lookupParam]
    by_cases h1 : ky = k
    · by_cases h2 : kx = k
      · exact absurd (h1.trans h2.symm) (fun hh => nd.1 (Or.inl hh))
      · simp [h1, h2]
    · simp [h1]
  | trans h1 h2 ih1 ih2 =>
    intro nd k
    rw [ih1 nd k, ih2 ((h1.map Prod.fst).nodup nd) k]

theorem mem_payloadKeys {p : Params} {k : String} :
    k ∈ payloadKeys p ↔ (k ∈ p.map Prod.fst ∧ k ≠ "signature") := by
  unfold payloadKeys sortKeys
  rw [(List.perm_insertionSort keyLe _).mem_iff]
  simp [List.mem_filter]

theorem payloadKeys_perm_eq {p1 p2 : Params} (h : p1.Perm p2) :
    payloadKeys p1 = payloadKeys p2 := by
  unfold payloadKeys sortKeys
  apply List.eq_of_perm_of_sorted (r := keyLe)
  · exact (List.perm_insertionSort _ _).trans
      (((h.map Prod.fst).filter _).trans (List.perm_insertionSort _ _).symm)
  · exact List.sorted_insertionSort _ _
  · exact List.sorted_insertionSort _ _

theorem lookupParam_setParam (p : Params) (k k' : String) (v : GoValue) :
    lookupParam (setParam p k v) k' =
      if k = k' then some v else lookupParam p k' := by
  induction p with
  | nil => simp [setParam, lookupParam]
  | cons e rest ih =>
    obtain ⟨ke, ve⟩ := e
    simp only [setParam]
    by_cases h1 : ke = k
    · subst h1
      simp only [if_pos rfl, lookupParam]
      by_cases h2 : ke = k'
      · simp [h2]
      · simp [h2]
    · simp only [if_neg h1, lookupParam]
      by_cases h2 : ke = k'
      · subst h2
        have : ¬ k = ke := fun hh => h1 hh.symm
        simp [this]
      · simp [h2, ih]

theorem injectParams_apiKey (a : String) (t : Int) (p : Params) :
    lookupParam (injectParams a t (some p)) "apiKey" =
      match lookupParam p "apiKey" with
      | some v => some v
      | none => some (.str a) := by
  unfold injectParams
  rcases hak : lookupParam p "apiKey" with _ | v
  · rcases hts : lookupParam p "timestamp" with _ | w
    · simp [hak, hts, lookupParam_setParam]
    · simp [hak, hts, lookupParam_setParam]
  · rcases hts : lookupParam p "timestamp" with _ | w
    · simp [hak, hts, lookupParam_setParam]
    · simp [hak, hts]

theorem injectParams_timestamp (a : String) (t : Int) (p : Params) :
    lookupParam (injectParams a t (some p)) "timestamp" =
      match lookupParam p "timestamp" with
      | some v => some v
      | none => some (.int (goTruncMs t)) := by
  unfold injectParams
  have hstep : ∀ q : Params, lookupParam q "timestamp" = lookupParam p "timestamp" →
      lookupParam
        (if (lookupParam q "timestamp").isNone
          then setParam q "timestamp" (.int (goTruncMs t)) else q) "timestamp" =
        match lookupParam p "timestamp" with
        | some v => some v
        | none => some (.int (goTruncMs t)) := by
    intro q hq
    rcases hts : lookupParam p "timestamp" with _ | v
    · rw [hts] at hq
      simp [hq, lookupParam_setParam]
    · rw [hts] at hq
      simp [hq]
  by_cases hak : (lookupParam p "apiKey").isNone
  · simp only [hak, if_true]
    exact hstep _ (by rw [lookupParam_setParam]; simp)
  · simp only [hak, Bool.false_eq_true, if_false]
    exact hstep _ rfl

theorem injectParams_other (a : String) (t : Int) (p : Params) (k : String)
    (h1 : k ≠ "apiKey") (h2 : k ≠ "timestamp") :
    lookupParam (injectParams a t (some p)) k = lookupParam p k := by
  have e1 : ¬ ("apiKey" = k) := Ne.symm h1
  have e2 : ¬ ("timestamp" = k) := Ne.symm h2
  unfold injectParams
  rcases hak : lookupParam p "apiKey" with _ | v
  · rcases hts : lookupParam p "timestamp" with _ | w
    · simp [hak, hts, lookupParam_setParam, e1, e2]
    · simp [hak, hts, lookupParam_setParam, e1]
  · rcases hts : lookupParam p "timestamp" with _ | w
    · simp [hak, hts, lookupParam_setParam, e2]
    · simp [hak, hts]

/-! ### Claim theorems -/

/-- C1: `buildSignaturePayload` applied to the mapping
`\x7b"symbol": "X", "side": "BUY", "apiKey": "abc", "timestamp": 1700000000000\x7d`
returns exactly `"apiKey=abc&side=BUY&symbol=X&timestamp=1700000000000"`:
keys sorted lexicographically, joined as `key=value` pairs separated by
`&`. -/
theorem buildSignaturePayload_endToEnd :
    buildSignaturePayload [("symbol", .str "X"), ("side", .str "BUY"),
        ("apiKey", .str "abc"), ("timestamp", .int 1700000000000)] =
      "apiKey=abc&side=BUY&symbol=X&timestamp=1700000000000" := by
  decide

/-- C2: for every parameter mapping that contains a key literally named
`"signature"` (at any position, any value), the canonical signing payload
contains no `signature` pair — `"signature"` is not among the keys the
payload is built from — while every other key of the mapping is among
them, and the payload is exactly the `&`-join of `key=value` pairs over
those keys. -/
theorem buildSignaturePayload_excludes_signature (p : Params)
    (_hsig : "signature" ∈ p.map Prod.fst) :
    "signature" ∉ payloadKeys p ∧
      (∀ k ∈ p.map Prod.fst, k ≠ "signature" → k ∈ payloadKeys p) ∧
      buildSignaturePayload p =
        String.intercalate "&"
          ((payloadKeys p).map (fun k => k ++ "=" ++ renderLookup p k)) := by
  refine ⟨?_, ?_, rfl⟩
  · intro hmem
    exact (mem_payloadKeys.mp hmem).2 rfl
  · intro k hk hne
    exact mem_payloadKeys.mpr ⟨hk, hne⟩

theorem buildSignaturePayload_excludes_signature_witness :
    "signature" ∈
      (([("signature", GoValue.str "bogus"), ("a", GoValue.str "1")] : Params).map
        Prod.fst) ∧
    "signature" ∉ payloadKeys [("signature", GoValue.str "bogus"), ("a", GoValue.str "1")] ∧
      (∀ k ∈ ([("signature", GoValue.str "bogus"), ("a", GoValue.str "1")] : Params).map
          Prod.fst, k ≠ "signature" →
        k ∈ payloadKeys [("signature", GoValue.str "bogus"), ("a", GoValue.str "1")]) ∧
      buildSignaturePayload [("signature", GoValue.str "bogus"), ("a", GoValue.str "1")] =
        String.intercalate "&"
          ((payloadKeys [("signature", GoValue.str "bogus"), ("a", GoValue.str "1")]).map
            (fun k => k ++ "=" ++
              renderLookup [("signature", GoValue.str "bogus"), ("a", GoValue.str "1")] k)) :=
  ⟨by decide, buildSignaturePayload_excludes_signature _ (by decide)⟩

/-- C3: two parameter mappings that are equal as key-to-value mappings but
differ in insertion order (their entry lists are permutations of each
other, keys unique) produce the identical payload string. -/
theorem buildSignaturePayload_order_independent (p1 p2 : Params)
    (hperm : p1.Perm p2) (nd : (p1.map Prod.fst).Nodup) :
    buildSignaturePayload p1 = buildSignaturePayload p2 := by
  unfold buildSignaturePayload
  rw [payloadKeys_perm_eq hperm]
  have hf : (fun k => k ++ "=" ++ renderLookup p1 k) =
      fun k => k ++ "=" ++ renderLookup p2 k := by
    funext k
    unfold renderLookup
    rw [lookupParam_perm hperm nd k]
  rw [hf]

theorem buildSignaturePayload_order_independent_witness :
    ([("b", GoValue.int 2), ("a", GoValue.int 1)] : Params).Perm
      [("a", GoValue.int 1), ("b", GoValue.int 2)] ∧
    (([("b", GoValue.int 2), ("a", GoValue.int 1)] : Params).map Prod.fst).Nodup ∧
    buildSignaturePayload [("b", GoValue.int 2), ("a", GoValue.int 1)] =
      buildSignaturePayload [("a", GoValue.int 1), ("b", GoValue.int 2)] :=
  ⟨List.Perm.swap _ _ _, by decide,
    buildSignaturePayload_order_independent _ _ (List.Perm.swap _ _ _) (by decide)⟩

/-- C4: for every non-negative server-time value `T`, the timestamp that
`SendSignedRequest` injects equals `floor(T/1000)*1000` exactly, and the
truncation maps the boundary inputs 1000, 1999 and 0 to 1000, 1000 and 0. -/
theorem sendSignedRequest_timestamp_truncation :
    (∀ (a : String) (t : Int) (p : Params), 0 ≤ t →
      lookupParam p "timestamp" = none →
      lookupParam (injectParams a t (some p)) "timestamp" =
        some (.int (Int.fdiv t 1000 * 1000))) ∧
    goTruncMs 1000 = 1000 ∧ goTruncMs 1999 = 1000 ∧ goTruncMs 0 = 0 := by
  refine ⟨?_, by decide, by decide, by decide⟩
  intro a t p ht habs
  rw [injectParams_timestamp, habs]
  have : Int.fdiv t 1000 = Int.tdiv t 1000 := Int.fdiv_eq_tdiv ht (by norm_num)
  simp [goTruncMs, this]

theorem sendSignedRequest_timestamp_truncation_witness :
    (0 : Int) ≤ 1999 ∧ lookupParam ([] : Params) "timestamp" = none ∧
    lookupParam (injectParams "abc" 1999 (some [])) "timestamp" =
      some (.int (Int.fdiv 1999 1000 * 1000)) :=
  ⟨by decide, rfl,
    sendSignedRequest_timestamp_truncation.1 "abc" 1999 [] (by decide) rfl⟩

/-- C5: `resolvePrivateKey` attempts, in order: (a) parsing as a
PEM-encoded PKCS#8 Ed25519 private key, (b) if the byte length equals the
Ed25519 seed size, treating the bytes as a raw seed, (c) if the byte length
equals the Ed25519 full private-key size, treating the bytes as a raw key;
for any other content (for example 10 arbitrary bytes) it returns an error
and never a zero-value, empty, or generated key. -/
theorem resolvePrivateKey_cases
    (pemDecode : List UInt8 → Option (List UInt8))
    (parsePKCS8 : List UInt8 → Option ParsedPKCS8)
    (newKeyFromSeed : List UInt8 → List UInt8)
    (fileData : List UInt8) :
    (∀ blk pk, pemDecode (trimSpace fileData) = some blk →
      parsePKCS8 blk = some (.ed25519Key pk) →
      resolvePrivateKey pemDecode parsePKCS8 newKeyFromSeed fileData = .ok pk) ∧
    (pemDecode (trimSpace fileData) = none →
      (trimSpace fileData).length = seedSize →
      resolvePrivateKey pemDecode parsePKCS8 newKeyFromSeed fileData =
        .ok (newKeyFromSeed (trimSpace fileData))) ∧
    (pemDecode (trimSpace fileData) = none →
      (trimSpace fileData).length ≠ seedSize →
      (trimSpace fileData).length = privateKeySize →
      resolvePrivateKey pemDecode parsePKCS8 newKeyFromSeed fileData =
        .ok (trimSpace fileData)) ∧
    (pemDecode (trimSpace fileData) = none →
      (trimSpace fileData).length ≠ seedSize →
      (trimSpace fileData).length ≠ privateKeySize →
      resolvePrivateKey pemDecode parsePKCS8 newKeyFromSeed fileData =
        .error "invalid Ed25519 key content (expect raw 32-byte seed, 64-byte key, or PKCS#8 PEM)") := by
  refine ⟨?_, ?_, ?_, ?_⟩
  · intro blk pk h1 h2
    unfold resolvePrivateKey
    simp [h1, h2]
  · intro h1 h2
    unfold resolvePrivateKey
    simp [h1, h2]
  · intro h1 h2 h3
    unfold resolvePrivateKey
    simp [h1, h2, h3, seedSize, privateKeySize]
  · intro h1 h2 h3
    unfold resolvePrivateKey
    simp [h1, h2, h3]

theorem resolvePrivateKey_cases_witness :
    (fun (_ : List UInt8) => (none : Option (List UInt8)))
        (trimSpace [0, 1, 2, 3, 4, 5, 6, 7, 8, 9]) = none ∧
    (trimSpace [0, 1, 2, 3, 4, 5, 6, 7, 8, 9]).length ≠ seedSize ∧
    (trimSpace [0, 1, 2, 3, 4, 5, 6, 7, 8, 9]).length ≠ privateKeySize ∧
    resolvePrivateKey (fun _ => none) (fun _ => none) (fun d => d)
        [0, 1, 2, 3, 4, 5, 6, 7, 8, 9] =
      .error "invalid Ed25519 key content (expect raw 32-byte seed, 64-byte key, or PKCS#8 PEM)" :=
  ⟨rfl, by decide, by decide,
    (resolvePrivateKey_cases (fun _ => none) (fun _ => none) (fun d => d)
      [0, 1, 2, 3, 4, 5, 6, 7, 8, 9]).2.2.2 rfl (by decide) (by decide)⟩

/-- C6: if private-key resolution fails, `SendSignedRequest` returns that
error verbatim and hands nothing to the connection: no request is written,
signed or unsigned, and there is no fallback delegation to `SendRequest`. -/
theorem sendSignedRequest_keyError_no_send (env : SignedEnv) (rid : Int)
    (method : String) (params : Option Params) (outProvided : Bool)
    (m : String) (hkey : env.keyRes = .error m) :
    SendSignedRequest env rid method params outProvided =
      ⟨.error (.keyErr m), false, []⟩ ∧
    (GoError.keyErr m).message = m := by
  unfold SendSignedRequest
  rw [hkey]
  exact ⟨rfl, rfl⟩

theorem sendSignedRequest_keyError_no_send_witness :
    (⟨.error "no Ed25519 key found at ./ed25519.key", "k", 0, fun _ _ => "",
        ⟨none, .error .deadlineExceeded, none⟩⟩ : SignedEnv).keyRes =
      .error "no Ed25519 key found at ./ed25519.key" ∧
    SendSignedRequest
        ⟨.error "no Ed25519 key found at ./ed25519.key", "k", 0, fun _ _ => "",
          ⟨none, .error .deadlineExceeded, none⟩⟩ 1 "order.place" none false =
      ⟨.error (.keyErr "no Ed25519 key found at ./ed25519.key"), false, []⟩ ∧
    (GoError.keyErr "no Ed25519 key found at ./ed25519.key").message =
      "no Ed25519 key found at ./ed25519.key" :=
  ⟨rfl, sendSignedRequest_keyError_no_send _ 1 "order.place" none false _ rfl⟩

/-- C7: for a response envelope with a non-success status, `SendRequest`
returns an error whose message contains the serialized envelope and does
not decode into the caller's `out`; for a success-status envelope with no
decode failure it returns no error. -/
theorem sendRequest_status_errors (conn : ConnBehavior) (rid : Int)
    (method : String) (params : Params) (outProvided : Bool)
    (resp : WSResponse) (hw : conn.writeErr = none)
    (hr : conn.readOutcome = .ok resp) :
    (resp.status ≠ 200 →
      SendRequest conn rid method params outProvided =
        ⟨.error (.requestFailed (marshalResponse resp)), false,
          [⟨rid, method, params⟩]⟩ ∧
      ∃ pre post,
        (GoError.requestFailed (marshalResponse resp)).message =
          pre ++ marshalResponse resp ++ post) ∧
    (resp.status = 200 → conn.decodeErr = none →
      (SendRequest conn rid method params outProvided).result = .ok ()) := by
  constructor
  · intro hs
    refine ⟨?_, "request failed: ", "", ?_⟩
    · simp [SendRequest, hw, hr, hs]
    · simp [GoError.message]
  · intro hs hd
    simp only [SendRequest, hw, hr, hs, hd]
    by_cases hb : (outProvided && resp.result.isSome) = true
    · simp [hb]
    · simp [hb]

theorem sendRequest_status_errors_witness :
    ((400 : Int) ≠ 200 ∧
      (SendRequest ⟨none, .ok ⟨7, 400, none, some ⟨-1102, "Mandatory parameter missing"⟩⟩, none⟩
          7 "order.place" [] true =
        ⟨.error (.requestFailed (marshalResponse
            ⟨7, 400, none, some ⟨-1102, "Mandatory parameter missing"⟩⟩)), false,
          [⟨7, "order.place", []⟩]⟩ ∧
      ∃ pre post,
        (GoError.requestFailed (marshalResponse
            ⟨7, 400, none, some ⟨-1102, "Mandatory parameter missing"⟩⟩)).message =
          pre ++ marshalResponse
            ⟨7, 400, none, some ⟨-1102, "Mandatory parameter missing"⟩⟩ ++ post)) ∧
    (SendRequest ⟨none, .ok ⟨7, 200, some (.str "done"), none⟩, none⟩
        7 "order.place" [] true).result = .ok () :=
  ⟨⟨by decide,
      (sendRequest_status_errors _ 7 "order.place" [] true _ rfl rfl).1 (by decide)⟩,
    (sendRequest_status_errors _ 7 "order.place" [] true _ rfl rfl).2 rfl rfl⟩

/-- C8: a read failure during `SendRequest` is surfaced as a read error
wrapping its original cause, and the deadline predicate (modelling
`errors.Is(err, os.ErrDeadlineExceeded)` through the `%w` wrap) is true of
the returned error exactly when the caller-provided context deadline was
the cause — so a deadline-exceeded failure is distinguishable from a
broken connection. -/
theorem sendRequest_deadline_distinguishable (conn : ConnBehavior)
    (rid : Int) (method : String) (params : Params) (outProvided : Bool)
    (cause : IOErr) (hw : conn.writeErr = none)
    (hr : conn.readOutcome = .error cause) :
    (SendRequest conn rid method params outProvided).result =
      .error (.readFailed cause) ∧
    (GoError.isDeadlineExceeded (.readFailed cause) = true ↔
      cause = .deadlineExceeded) := by
  constructor
  · simp [SendRequest, hw, hr]
  · cases cause
    · simp [GoError.isDeadlineExceeded]
    · simp [GoError.isDeadlineExceeded]

theorem sendRequest_deadline_distinguishable_witness :
    (⟨none, .error .deadlineExceeded, none⟩ : ConnBehavior).writeErr = none ∧
    (SendRequest ⟨none, .error .deadlineExceeded, none⟩ 1 "depth" [] false).result =
      .error (.readFailed .deadlineExceeded) ∧
    (GoError.isDeadlineExceeded (.readFailed .deadlineExceeded) = true ↔
      IOErr.deadlineExceeded = .deadlineExceeded) :=
  ⟨rfl, sendRequest_deadline_distinguishable _ 1 "depth" [] false _ rfl rfl⟩

/-- C9: before signing, `SendSignedRequest` replaces a nil `params` by an
empty mapping, injects `apiKey` only when that key is absent, injects
`timestamp` only when that key is absent — caller-supplied values are never
overwritten — and builds the signed request from exactly this injected
mapping. -/
theorem sendSignedRequest_injection (a : String) (t : Int) :
    (injectParams a t none = injectParams a t (some [])) ∧
    (∀ p v, lookupParam p "apiKey" = some v →
      lookupParam (injectParams a t (some p)) "apiKey" = some v) ∧
    (∀ p, lookupParam p "apiKey" = none →
      lookupParam (injectParams a t (some p)) "apiKey" = some (.str a)) ∧
    (∀ p v, lookupParam p "timestamp" = some v →
      lookupParam (injectParams a t (some p)) "timestamp" = some v) ∧
    (∀ p, lookupParam p "timestamp" = none →
      lookupParam (injectParams a t (some p)) "timestamp" =
        some (.int (goTruncMs t))) ∧
    (∀ (env : SignedEnv) (priv : List UInt8) (rid : Int) (method : String)
        (params : Option Params) (outProvided : Bool),
      env.keyRes = .ok priv → env.apiKeyCfg = a → env.serverTimeMs = t →
      SendSignedRequest env rid method params outProvided =
        SendRequest env.conn rid method
          (signedParams env priv (injectParams a t params)) outProvided) := by
  refine ⟨rfl, ?_, ?_, ?_, ?_, ?_⟩
  · intro p v hv
    rw [injectParams_apiKey, hv]
  · intro p hv
    rw [injectParams_apiKey, hv]
  · intro p v hv
    rw [injectParams_timestamp, hv]
  · intro p hv
    rw [injectParams_timestamp, hv]
  · intro env priv rid method params outProvided hk ha ht
    subst ha
    subst ht
    unfold SendSignedRequest
    rw [hk]

theorem sendSignedRequest_injection_witness :
    lookupParam ([("apiKey", GoValue.str "mine")] : Params) "apiKey" =
      some (.str "mine") ∧
    lookupParam (injectParams "cfg" 5001 (some [("apiKey", GoValue.str "mine")]))
      "apiKey" = some (.str "mine") ∧
    lookupParam (injectParams "cfg" 5001 (some [])) "apiKey" = some (.str "cfg") ∧
    lookupParam (injectParams "cfg" 5001 (some [])) "timestamp" =
      some (.int (goTruncMs 5001)) :=
  ⟨rfl, (sendSignedRequest_injection "cfg" 5001).2.1 _ _ rfl,
    (sendSignedRequest_injection "cfg" 5001).2.2.1 _ rfl,
    (sendSignedRequest_injection "cfg" 5001).2.2.2.2.1 _ rfl⟩

/-- C10: `SendSignedRequest` mutates the caller-passed map in place: on a
call that reaches the send step, the map object at the caller's own
reference afterwards is the injected-and-signed version of the caller's
map — it carries the `apiKey`, `timestamp` and `signature` entries — and
no other map object changes; the channel does not operate on a private
copy. -/
theorem sendSignedRequest_mutates_in_place (env : SignedEnv) (rid : Int)
    (method : String) (h : Heap) (r : Nat) (outProvided : Bool)
    (priv : List UInt8) (hkey : env.keyRes = .ok priv) :
    (SendSignedRequestRef env rid method h r outProvided).2 r =
      signedParams env priv
        (injectParams env.apiKeyCfg env.serverTimeMs (some (h r))) ∧
    (lookupParam ((SendSignedRequestRef env rid method h r outProvided).2 r)
      "apiKey").isSome = true ∧
    (lookupParam ((SendSignedRequestRef env rid method h r outProvided).2 r)
      "timestamp").isSome = true ∧
    (lookupParam ((SendSignedRequestRef env rid method h r outProvided).2 r)
      "signature").isSome = true ∧
    (∀ x, x ≠ r →
      (SendSignedRequestRef env rid method h r outProvided).2 x = h x) := by
  have hres : (SendSignedRequestRef env rid method h r outProvided).2 =
      updateHeap h r (signedParams env priv
        (injectParams env.apiKeyCfg env.serverTimeMs (some (h r)))) := by
    unfold SendSignedRequestRef
    rw [hkey]
  rw [hres]
  have hur : ∀ pp : Params, updateHeap h r pp r = pp := by
    intro pp
    simp [updateHeap]
  rw [hur]
  refine ⟨rfl, ?_, ?_, ?_, ?_⟩
  · unfold signedParams
    rw [lookupParam_setParam, if_neg (by decide), injectParams_apiKey]
    rcases lookupParam (h r) "apiKey" with _ | v <;> simp
  · unfold signedParams
    rw [lookupParam_setParam, if_neg (by decide), injectParams_timestamp]
    rcases lookupParam (h r) "timestamp" with _ | v <;> simp
  · unfold signedParams
    rw [lookupParam_setParam, if_pos rfl]
    rfl
  · intro x hx
    simp [updateHeap, hx]

theorem sendSignedRequest_mutates_in_place_witness :
    (⟨.ok [7], "cfg", 123456, fun _ _ => "SIG",
        ⟨none, .ok ⟨1, 200, none, none⟩, none⟩⟩ : SignedEnv).keyRes = .ok [7] ∧
    (SendSignedRequestRef
        ⟨.ok [7], "cfg", 123456, fun _ _ => "SIG",
          ⟨none, .ok ⟨1, 200, none, none⟩, none⟩⟩ 1 "order.place"
        (fun _ => [("symbol", GoValue.str "X")]) 0 false).2 0 =
      signedParams
        ⟨.ok [7], "cfg", 123456, fun _ _ => "SIG",
          ⟨none, .ok ⟨1, 200, none, none⟩, none⟩⟩ [7]
        (injectParams "cfg" 123456 (some [("symbol", GoValue.str "X")])) ∧
    (lookupParam ((SendSignedRequestRef
        ⟨.ok [7], "cfg", 123456, fun _ _ => "SIG",
          ⟨none, .ok ⟨1, 200, none, none⟩, none⟩⟩ 1 "order.place"
        (fun _ => [("symbol", GoValue.str "X")]) 0 false).2 0)
      "signature").isSome = true :=
  ⟨rfl,
    (sendSignedRequest_mutates_in_place _ 1 "order.place"
      (fun _ => [("symbol", GoValue.str "X")]) 0 false [7] rfl).1,
    (sendSignedRequest_mutates_in_place _ 1 "order.place"
      (fun _ => [("symbol", GoValue.str "X")]) 0 false [7] rfl).2.2.2.1⟩

end Binance
